import Mathlib

/-!
Verification of the PubMed-Baseline ingestion pipeline against its design
specification.  The Python sources are shallowly embedded: the downloader's
retry loop (`src/src/downloader.py`), the record codec (`src/parser.py`),
and the checkpointed indexer plus query path (`src/src/vector_store.py`,
`src/vector_store.py`) become explicit Lean functions over small state
types, and the specified properties are proved or refuted about those
functions.
-/

namespace PubMed

/-! ## Downloader (`src/src/downloader.py`, `download_file`)

One call to `download_file` runs up to `max_retries` attempts.  Each
attempt reads the current on-disk size, issues a HEAD probe, possibly
skips the transfer, otherwise issues a ranged GET and streams the body to
disk, then checks the resulting size against the known total.  The network
behaviour visible to one attempt is captured by `ProbeOutcome` (the HEAD
request) and `GetOutcome` (the GET request). -/

/-- A `content-length` header as seen by `int(...)`: absent, present but
unparsable (so `int` raises `ValueError`, which no handler of the attempt
catches — the generic `except Exception` of the outer loop then breaks),
or a parsed byte count. -/
inductive LenHeader where
  | missing
  | malformed
  | value (n : Nat)
deriving DecidableEq

/-- Outcome of the HEAD probe: a network exception, or a response with a
status code and a `content-length` header. -/
inductive ProbeOutcome where
  | fail
  | status (code : Nat) (contentLength : LenHeader)
deriving DecidableEq

/-- Outcome of the GET request: a network exception before any byte is
written, or a response with a status code, a `content-length` header, the
number of body bytes written to disk, and whether the stream raised after
those bytes were written. -/
inductive GetOutcome where
  | netErr
  | resp (code : Nat) (contentLength : LenHeader) (bytes : Nat) (interrupted : Bool)
deriving DecidableEq

/-- Network behaviour offered to one attempt. -/
structure AttemptEnv where
  probe : ProbeOutcome
  get : GetOutcome
deriving DecidableEq

/-- How one attempt ends: success breaks the retry loop; a retryable
(network-layer) error sleeps and continues with the next attempt; a
non-network exception (`except Exception` at `src/src/downloader.py`
lines 155-157, reached e.g. by `ValueError` from `int()` on a malformed
`content-length`) breaks the loop immediately with no sleep.  Disk I/O
errors on open/write reach the same break but are outside this
network-level environment. -/
inductive AttemptResult where
  | success
  | retry
  | abort
deriving DecidableEq

/-- Observable trace of one attempt: the byte-range request header (the
`some k` case stands for `Range: bytes=k-`), whether a GET transfer was
issued at all, how the attempt ended, and the on-disk file size afterwards. -/
structure AttemptTrace where
  rangeStart : Option Nat
  getIssued : Bool
  result : AttemptResult
  newSize : Nat
deriving DecidableEq

/-- The value `total_size` as computed from the HEAD probe: 0 on a network
error or a status of 400 and above, else `int` of the `content-length`
header (0 if absent); `none` stands for the `ValueError` a malformed
header raises out of the attempt. -/
def probeTotal : ProbeOutcome → Option Nat
  | .fail => some 0
  | .status code len =>
      if 400 ≤ code then some 0
      else
        match len with
        | .missing => some 0
        | .malformed => none
        | .value n => some n

/-- The value `current_size` after the response-status handling: a 200 response means
the remote ignored the range, so the write restarts at offset 0; otherwise
the partial bytes are kept. -/
def sizeAfterStatus (code fs : Nat) : Nat :=
  if code = 200 then 0 else fs

/-- The value `total_size` after the post-GET update: when the probe gave
0, `int` of the GET response's `content-length` (when the header is
present) plus the current offset is used instead; `none` stands for the
`ValueError` a malformed header raises out of the attempt (this update
runs before the file is opened for writing). -/
def totalAfterGet (probeT : Nat) (clen : LenHeader) (cur : Nat) : Option Nat :=
  if probeT = 0 then
    match clen with
    | .missing => some 0
    | .malformed => none
    | .value l => some (l + cur)
  else some probeT

/-- The `Range` header built at the top of each attempt from the on-disk
size: present exactly when some bytes are already on disk. -/
def rangeHeader (fs : Nat) : Option Nat :=
  if 0 < fs then some fs else none

/-- One attempt of `download_file`, given the on-disk size `fs` at the
start of the attempt.  Mirrors `src/src/downloader.py` lines 74-157:
resume header from the on-disk size, HEAD probe (a malformed
`content-length` raises out of the attempt: abort, file untouched),
already-complete check, GET with `raise_for_status`, 200/206 handling,
post-GET `total_size` update (again aborting on a malformed header,
before any byte is written), streaming write, and the final truncation
check. -/
def attemptRun (env : AttemptEnv) (fs : Nat) : AttemptTrace :=
  match probeTotal env.probe with
  | none =>
      { rangeStart := rangeHeader fs, getIssued := false, result := .abort, newSize := fs }
  | some total =>
      if 0 < total ∧ total ≤ fs then
        { rangeStart := rangeHeader fs, getIssued := false, result := .success,
          newSize := fs }
      else
        match env.get with
        | .netErr =>
            { rangeStart := rangeHeader fs, getIssued := true, result := .retry,
              newSize := fs }
        | .resp code clen bytes intr =>
            if 400 ≤ code then
              { rangeStart := rangeHeader fs, getIssued := true, result := .retry,
                newSize := fs }
            else
              match totalAfterGet total clen (sizeAfterStatus code fs) with
              | none =>
                  { rangeStart := rangeHeader fs, getIssued := true, result := .abort,
                    newSize := fs }
              | some total2 =>
                  if intr then
                    { rangeStart := rangeHeader fs, getIssued := true, result := .retry,
                      newSize := sizeAfterStatus code fs + bytes }
                  else if 0 < total2 ∧ sizeAfterStatus code fs + bytes < total2 then
                    { rangeStart := rangeHeader fs, getIssued := true, result := .retry,
                      newSize := sizeAfterStatus code fs + bytes }
                  else
                    { rangeStart := rangeHeader fs, getIssued := true,
                      result := .success, newSize := sizeAfterStatus code fs + bytes }

/-- Final outcome of `download_file`: whether it returned a path (`ok`),
the final on-disk size, the log of backoff sleeps (in seconds), and the
number of attempts executed. -/
structure DownloadOutcome where
  ok : Bool
  finalSize : Nat
  sleeps : List Nat
  attemptsUsed : Nat
deriving DecidableEq

/-- The retry loop of `download_file`: `a` is the index of the next
attempt, `fuel` the number of attempts still allowed.  A retryable error
sleeps `5 * 2 ^ a` seconds and continues with the size the attempt left
on disk; a non-network exception breaks out of the loop at once, with no
sleep, and the call fails. -/
def downloadLoop (env : Nat → AttemptEnv) (a fuel fs : Nat) : DownloadOutcome :=
  match fuel with
  | 0 => { ok := false, finalSize := fs, sleeps := [], attemptsUsed := 0 }
  | fuel' + 1 =>
      let tr := attemptRun (env a) fs
      match tr.result with
      | .success =>
          { ok := true, finalSize := tr.newSize, sleeps := [], attemptsUsed := 1 }
      | .abort =>
          { ok := false, finalSize := tr.newSize, sleeps := [], attemptsUsed := 1 }
      | .retry =>
          let rest := downloadLoop env (a + 1) fuel' tr.newSize
          { ok := rest.ok, finalSize := rest.finalSize,
            sleeps := 5 * 2 ^ a :: rest.sleeps, attemptsUsed := rest.attemptsUsed + 1 }

/-- The function `download_file` with `max_retries` attempts, starting from on-disk
size `fs0`. -/
def download_file (env : Nat → AttemptEnv) (maxRetries fs0 : Nat) : DownloadOutcome :=
  downloadLoop env 0 maxRetries fs0

/-- The on-disk size just before attempt `a + k` of a run that entered
attempt `a` with size `fs`: each attempt leaves its `newSize` on disk for
the next one. -/
def sizeAt (env : Nat → AttemptEnv) (a fs : Nat) : Nat → Nat
  | 0 => fs
  | k + 1 => (attemptRun (env (a + k)) (sizeAt env a fs k)).newSize

/-! ## Checkpointed indexer (`src/src/vector_store.py`, `VectorStore`)

Strings from the JSON lines are embedded as `List Char`.  One line of the
Archive Store either fails to parse as JSON (or raises while being
processed) or yields the fields that `index_papers` reads out of the
parsed object. -/

/-- Fields read from one parsed JSON line: `data.get("pmid")` (absent maps
to `none`), and `data.get(k, "")` for title, abstract, journal and year. -/
structure RecordData where
  pmid : Option (List Char)
  title : List Char
  abstract : List Char
  journal : List Char
  year : List Char
deriving DecidableEq

/-- One line of the Archive Store as seen by `index_papers`. -/
inductive StoreLine where
  | malformed
  | record (d : RecordData)
deriving DecidableEq

/-- Persisted checkpoint file state: absent, unreadable or invalid JSON,
valid JSON without a `processed_lines` field, or `{"processed_lines": n}`. -/
inductive CheckpointFile where
  | absent
  | corrupt
  | noField
  | withField (n : Nat)
deriving DecidableEq

/-- The method `VectorStore._load_checkpoint`: the stored value when the file exists,
is readable, parses as JSON and has the field; 0 in every other case. -/
def loadCheckpoint : CheckpointFile → Nat
  | .withField n => n
  | _ => 0

/-- Truthiness of `data.get("pmid")`: `None` and the empty string are
falsy. -/
def pmidOk : Option (List Char) → Bool
  | none => false
  | some p => !p.isEmpty

/-- The guard `if not pmid or (not title and not abstract): continue`,
negated: the record is accepted when the pmid is truthy and at least one
of title and abstract is non-empty. -/
def recordAccepted (d : RecordData) : Bool :=
  pmidOk d.pmid && (!d.title.isEmpty || !d.abstract.isEmpty)

/-- Whether a store line contributes a record to a batch. -/
def lineAccepted : StoreLine → Bool
  | .malformed => false
  | .record d => recordAccepted d

/-- The characters of the fixed template piece `"Title: "`. -/
def titleTag : List Char := ['T', 'i', 't', 'l', 'e', ':', ' ']

/-- The characters of the fixed template piece `"Abstract: "`, which is
also the separator the query path splits on. -/
def sepAbstract : List Char := ['A', 'b', 's', 't', 'r', 'a', 'c', 't', ':', ' ']

/-- The document template `f"Title: {title}\nAbstract: {abstract}"`. -/
def docText (title abstract : List Char) : List Char :=
  titleTag ++ (title ++ ('\n' :: (sepAbstract ++ abstract)))

/-- Metadata stored with each document: pmid, title truncated to 200
characters, journal, year. -/
structure Meta where
  pmid : List Char
  title : List Char
  journal : List Char
  year : List Char
deriving DecidableEq

/-- The dictionary `meta` as built by `index_papers`. -/
def mkMeta (d : RecordData) : Meta :=
  { pmid := d.pmid.getD [], title := d.title.take 200,
    journal := d.journal, year := d.year }

/-- One `collection.upsert(documents=…, metadatas=…, ids=…)` call. -/
structure UpsertBatch where
  documents : List (List Char)
  metadatas : List Meta
  ids : List (List Char)
deriving DecidableEq

/-- Mutable state of the `index_papers` loop: the pending batch lists, the
running line counter, the checkpoint file on disk, and the log of upsert
calls issued so far. -/
structure IndexState where
  documents : List (List Char)
  metadatas : List Meta
  ids : List (List Char)
  currentLine : Nat
  checkpointFile : CheckpointFile
  upserts : List UpsertBatch
deriving DecidableEq

/-- One iteration of the `for line in iterator` loop of `index_papers`:
the line counter always advances; a malformed or rejected line changes
nothing else; an accepted record is appended to the pending batch, and a
full batch is upserted and the checkpoint saved as the current line. -/
def stepLine (batchSize : Nat) (s : IndexState) (l : StoreLine) : IndexState :=
  let s := { s with currentLine := s.currentLine + 1 }
  match l with
  | .malformed => s
  | .record d =>
      if recordAccepted d then
        let documents := s.documents ++ [docText d.title d.abstract]
        let metadatas := s.metadatas ++ [mkMeta d]
        let ids := s.ids ++ [d.pmid.getD []]
        if batchSize ≤ documents.length then
          { documents := [], metadatas := [], ids := [],
            currentLine := s.currentLine,
            checkpointFile := .withField s.currentLine,
            upserts := s.upserts ++ [⟨documents, metadatas, ids⟩] }
        else
          { s with documents := documents, metadatas := metadatas, ids := ids }
      else s

/-- State at the top of the `index_papers` loop: empty batch lists, the
line counter at the resume position, the checkpoint file untouched. -/
def initState (cp : CheckpointFile) : IndexState :=
  { documents := [], metadatas := [], ids := [], currentLine := loadCheckpoint cp,
    checkpointFile := cp, upserts := [] }

/-- The tail of `index_papers`: upsert any leftover batch and save a final
checkpoint at the current line. -/
def finalFlush (s : IndexState) : IndexState :=
  if s.documents.isEmpty then s
  else
    { s with upserts := s.upserts ++ [⟨s.documents, s.metadatas, s.ids⟩],
             checkpointFile := .withField s.currentLine }

/-- The method `VectorStore.index_papers`: load the checkpoint, skip that many lines,
run the loop over the remaining lines, then upsert any leftover batch and
save a final checkpoint. -/
def index_papers (store : List StoreLine) (cp : CheckpointFile) (batchSize : Nat) :
    IndexState :=
  finalFlush ((store.drop (loadCheckpoint cp)).foldl (stepLine batchSize) (initState cp))

/-! ## Query path (`VectorStore.query`, both source variants)

The external index returns one batch of parallel lists (ids, metadatas,
documents).  The corrected variant (`src/src/vector_store.py`) reads
`metas[i]`; the divergent variant (`src/vector_store.py`) reads
`metadatas[i]` where no `metadatas` name is in scope, so its loop body
raises `NameError` as soon as it runs. -/

/-- One batch of a query result: `results['ids'][0]`,
`results['metadatas'][0]`, `results['documents'][0]`. -/
structure QueryResult where
  ids : List (List Char)
  metadatas : List Meta
  documents : List (List Char)
deriving DecidableEq

/-- The part of the stored document after the first occurrence of `sep`,
or `none` when `sep` does not occur: the semantics of
`doc_text.split(sep, 1)[1]` guarded by `sep in doc_text`. -/
def afterFirst (sep : List Char) : List Char → Option (List Char)
  | [] => if sep.isPrefixOf ([] : List Char) then some [] else none
  | c :: s =>
      if sep.isPrefixOf (c :: s) then some ((c :: s).drop sep.length)
      else afterFirst sep s

/-- The test `sep in s` for strings. -/
def containsSeq (sep s : List Char) : Bool :=
  (afterFirst sep s).isSome

/-- The abstract-recovery block of `query`: empty unless `"Abstract: "`
occurs in the document, else everything after its first occurrence. -/
def extractAbstract (doc : List Char) : List Char :=
  if containsSeq sepAbstract doc then
    match afterFirst sepAbstract doc with
    | some rest => rest
    | none => []
  else []

/-- One candidate dictionary as built by `query`. -/
structure Candidate where
  pmid : List Char
  title : List Char
  journal : List Char
  year : List Char
  abstract : List Char
  authors : List (List Char)
deriving DecidableEq

/-- The candidate built from one result position: id, metadata fields, and
the abstract recovered from the stored document; authors are not stored. -/
def mkCandidate (doc_id : List Char) (m : Meta) (doc : List Char) : Candidate :=
  { pmid := doc_id, title := m.title, journal := m.journal, year := m.year,
    abstract := extractAbstract doc, authors := [] }

/-- The loop of the corrected variant: walk the three parallel lists
building one candidate per position. -/
def buildCandidates : List (List Char) → List Meta → List (List Char) → List Candidate
  | i :: is, m :: ms, d :: ds => mkCandidate i m d :: buildCandidates is ms ds
  | _, _, _ => []

/-- The method `VectorStore.query` of `src/src/vector_store.py` (corrected variant),
after the empty-result guard. -/
def query_corrected (r : QueryResult) : List Candidate :=
  buildCandidates r.ids r.metadatas r.documents

/-- The method `VectorStore.query` of `src/vector_store.py` (divergent variant): the
loop body evaluates `metadatas[i]` but no `metadatas` name is bound in
that function, so the first iteration raises `NameError`; only an empty
id list completes the loop. -/
def query_divergent (r : QueryResult) : Except String (List Candidate) :=
  match r.ids with
  | [] => .ok []
  | _ :: _ => .error "NameError"

/-! ## Reset (`VectorStore.reset_db`)

The tests (`src/tests/test_reset.py`) exercise `VectorStore.reset_db`, but
no source file under the repository defines it; the operation is modelled
from the spec. -/

/-- Persistent state touched by reset: the checkpoint file beside the
store, and the entries (id, document) of the index's backing collection. -/
structure VectorStoreState where
  checkpointFile : CheckpointFile
  collectionEntries : List (List Char × List Char)
deriving DecidableEq

/-- Modelled from the spec: `VectorStore.reset_db` is called by
`src/tests/test_reset.py` but defined in no source file of the
repository.  Per the spec's `reset` operation it "deletes the checkpoint
file and recreates the external index's backing collection empty". -/
def reset_db (_s : VectorStoreState) : VectorStoreState :=
  { checkpointFile := .absent, collectionEntries := [] }

/-! ## Record codec (`src/parser.py`, `parse_article`)

A raw archive element is a small XML tree.  `find` returns the first
direct child with the given tag, `findall` all direct children with that
tag, `get` an attribute value — the lxml operations `parse_article`
uses. -/

/-- An XML element: tag, attributes, text, direct children. -/
inductive XElem where
  | node (tag : String) (attrs : List (String × String)) (text : Option String)
      (children : List XElem)

namespace XElem

/-- The element's tag. -/
def tag : XElem → String
  | node t _ _ _ => t

/-- The element's attribute list. -/
def attrs : XElem → List (String × String)
  | node _ a _ _ => a

/-- The element's text, `none` standing for Python `None`. -/
def text : XElem → Option String
  | node _ _ t _ => t

/-- The element's direct children. -/
def children : XElem → List XElem
  | node _ _ _ c => c

/-- The lookup `elem.find(tag)`: first direct child with the tag, if any. -/
def find (e : XElem) (t : String) : Option XElem :=
  e.children.find? (fun c => c.tag == t)

/-- The lookup `elem.findall(tag)`: all direct children with the tag, in order. -/
def findall (e : XElem) (t : String) : List XElem :=
  e.children.filter (fun c => c.tag == t)

/-- The lookup `elem.get(key)`: the attribute's value, if present. -/
def get (e : XElem) (k : String) : Option String :=
  (e.attrs.find? (fun p => p.1 == k)).map (fun p => p.2)

/-- Truthiness of `t.text`: `None` and the empty string are falsy. -/
def textTruthy (e : XElem) : Bool :=
  match e.text with
  | none => false
  | some s => !s.isEmpty

end XElem

/-- The helper `extract_text`: the element's text when the element exists and the
text is truthy, else the empty string. -/
def extract_text : Option XElem → String
  | none => ""
  | some e =>
      match e.text with
      | none => ""
      | some t => t

/-- The dictionary `parse_article` returns. -/
structure PaperDict where
  pmid : String
  title : String
  abstract : String
  authors : List String
  journal : String
  year : String
  doi : String
  pmcid : String
  pub_types : List String
  languages : List String
  mesh_terms : List String
  chemicals : List String
  keywords : List String
deriving DecidableEq

/-- The function `parse_article` (`src/parser.py` lines 15-147): `None` exactly when
the `MedlineCitation` or `Article` substructure is absent; otherwise a
dictionary whose `pmid` is the (possibly empty) text of the first `PMID`
child.  The `except` clause of the source is unreachable here because
every modelled operation is total. -/
def parse_article (elem : XElem) : Option PaperDict :=
  match elem.find "MedlineCitation" with
  | none => none
  | some medline =>
      let pubmed_data := elem.find "PubmedData"
      let pmid := extract_text (medline.find "PMID")
      match medline.find "Article" with
      | none => none
      | some article =>
          let title := extract_text (article.find "ArticleTitle")
          let abstract_text :=
            match article.find "Abstract" with
            | none => ""
            | some ab =>
                String.intercalate " "
                  (((ab.findall "AbstractText").filter XElem.textTruthy).map
                    (fun t => extract_text (some t)))
          let authors :=
            match article.find "AuthorList" with
            | none => []
            | some al =>
                (al.findall "Author").filterMap (fun a =>
                  let last_name := extract_text (a.find "LastName")
                  let fore_name := extract_text (a.find "ForeName")
                  if !last_name.isEmpty || !fore_name.isEmpty then
                    some (String.trim (last_name ++ " " ++ fore_name))
                  else none)
          let journalPair :=
            match article.find "Journal" with
            | none => ("", "")
            | some j =>
                let jt := extract_text (j.find "Title")
                let yr :=
                  match j.find "JournalIssue" with
                  | none => ""
                  | some ji =>
                      match ji.find "PubDate" with
                      | none => ""
                      | some pd =>
                          match pd.find "Year" with
                          | some y => extract_text (some y)
                          | none =>
                              match pd.find "MedlineDate" with
                              | some md => (extract_text (some md)).take 4
                              | none => ""
                (jt, yr)
          let pub_types :=
            match article.find "PublicationTypeList" with
            | none => []
            | some ptl =>
                (ptl.findall "PublicationType").map (fun pt => extract_text (some pt))
          let languages :=
            (article.findall "Language").map (fun l => extract_text (some l))
          let mesh_terms :=
            match medline.find "MeshHeadingList" with
            | none => []
            | some ml =>
                (ml.findall "MeshHeading").map (fun mesh =>
                  let descriptor := extract_text (mesh.find "DescriptorName")
                  let qualifiers :=
                    (mesh.findall "QualifierName").map (fun q => extract_text (some q))
                  if qualifiers.isEmpty then descriptor
                  else descriptor ++ " [" ++ String.intercalate ", " qualifiers ++ "]")
          let chemicals :=
            match medline.find "ChemicalList" with
            | none => []
            | some cl =>
                (cl.findall "Chemical").map
                  (fun chem => extract_text (chem.find "NameOfSubstance"))
          let keywords :=
            match medline.find "KeywordList" with
            | none => []
            | some kl =>
                (kl.findall "Keyword").map (fun kw => extract_text (some kw))
          let idPair :=
            match pubmed_data with
            | none => ("", "")
            | some pd =>
                match pd.find "ArticleIdList" with
                | none => ("", "")
                | some idl =>
                    (idl.findall "ArticleId").foldl
                      (fun (acc : String × String) (aid : XElem) =>
                        match aid.get "IdType" with
                        | some t =>
                            if t = "doi" then (extract_text (some aid), acc.2)
                            else if t = "pmc" then (acc.1, extract_text (some aid))
                            else acc
                        | none => acc)
                      ("", "")
          some
            { pmid := pmid, title := title, abstract := abstract_text,
              authors := authors, journal := journalPair.1, year := journalPair.2,
              doi := idPair.1, pmcid := idPair.2, pub_types := pub_types,
              languages := languages, mesh_terms := mesh_terms,
              chemicals := chemicals, keywords := keywords }

/-! ## Concrete inputs used by the theorems -/

/-- A valid store record with single-character id `c`, as in the
checkpoint test (`src/tests/test_checkpoint_gpu.py`). -/
def demoRec (c : Char) : StoreLine :=
  .record
    { pmid := some [c], title := ['T', 'i', 't', 'l', 'e', ' ', c],
      abstract := ['A', 'b', 's', ' ', c], journal := [], year := [] }

/-- Store of 4 valid records, ids "0".."3". -/
def demoStore4 : List StoreLine :=
  [demoRec '0', demoRec '1', demoRec '2', demoRec '3']

/-- The same store after appending 6 more valid records, ids "4".."9". -/
def demoStore10 : List StoreLine :=
  demoStore4 ++
    [demoRec '4', demoRec '5', demoRec '6', demoRec '7', demoRec '8', demoRec '9']

/-- A raw element with `MedlineCitation` and `Article` present but no
`PMID` child at all. -/
def noPmidElem : XElem :=
  .node "PubmedArticle" [] none
    [.node "MedlineCitation" [] none
      [.node "Article" [] none
        [.node "ArticleTitle" [] (some "A title") []]]]

/-- A one-hit query result, as in `src/tests/test_vector_store.py`. -/
def demoQueryResult : QueryResult :=
  { ids := [['1', '2', '3', '4', '5']],
    metadatas := [{ pmid := ['1', '2', '3', '4', '5'], title := ['T'],
                    journal := ['J'], year := ['2', '0', '2', '3'] }],
    documents := [docText ['T'] ['A']] }

/-- Attempt whose probe reports total 5 and whose GET answers 206 with 2
body bytes. -/
def env206 : AttemptEnv :=
  { probe := .status 200 (.value 5), get := .resp 206 .missing 2 false }

/-- Attempt whose probe reports total 5 and whose GET answers 200 with 2
body bytes. -/
def env200 : AttemptEnv :=
  { probe := .status 200 (.value 5), get := .resp 200 .missing 2 false }

/-- Attempt whose probe reports total 5; used with an on-disk size of 5 it
is already complete. -/
def envComplete : AttemptEnv :=
  { probe := .status 200 (.value 5), get := .netErr }

/-- Attempt whose GET always fails at the network layer. -/
def envAllNetErr : AttemptEnv :=
  { probe := .fail, get := .netErr }

/-- Attempt whose HEAD probe raises but whose GET then delivers a complete
5-byte body. -/
def probeFailEnv : AttemptEnv :=
  { probe := .fail, get := .resp 200 (.value 5) 5 false }

/-- Attempt whose probe reports total 5 but whose GET delivers 7 bytes:
the resulting file is larger than the known total. -/
def overLongEnv : AttemptEnv :=
  { probe := .status 200 (.value 5), get := .resp 200 .missing 7 false }

/-- Attempt whose probe reports total 10 but whose GET stream ends after
only 3 bytes: a silent truncation. -/
def truncEnv : AttemptEnv :=
  { probe := .status 200 (.value 10), get := .resp 200 .missing 3 false }

/-- Attempt whose HEAD probe answers 200 with a malformed
`content-length`: `int()` raises `ValueError` and the attempt aborts. -/
def malformedLenEnv : AttemptEnv :=
  { probe := .status 200 .malformed, get := .netErr }

/-! ## Helper lemmas -/

/-- Splitting `⌈N / B⌉` into full batches plus one leftover batch. -/
theorem ceil_div_eq (N B : Nat) (hB : 0 < B) :
    N / B + (if N % B = 0 then 0 else 1) = (N + B - 1) / B := by
  obtain ⟨q, r, hr, rfl⟩ : ∃ q r, r < B ∧ N = B * q + r :=
    ⟨N / B, N % B, Nat.mod_lt _ hB, (Nat.div_add_mod N B).symm⟩
  rw [Nat.mul_add_div hB, Nat.mul_add_mod, Nat.div_eq_of_lt hr, Nat.mod_eq_of_lt hr]
  rcases Nat.eq_zero_or_pos r with h0 | hpos
  · subst h0
    rw [if_pos rfl, show B * q + 0 + B - 1 = B * q + (B - 1) by omega,
      Nat.mul_add_div hB, Nat.div_eq_of_lt (by omega)]
  · rw [if_neg (by omega), show B * q + r + B - 1 = B * q + (r - 1 + B) by omega,
      Nat.mul_add_div hB, Nat.add_div_right _ hB, Nat.div_eq_of_lt (by omega)]

/-- Invariant of the `index_papers` loop over a run of accepted lines: the
pending-batch size, the number of upserts, the line counter and the saved
checkpoint are all determined by the incoming state and the number of
lines. -/
theorem foldl_accepted_inv (B : Nat) (hB : 0 < B) (lines : List StoreLine) :
    ∀ s : IndexState,
      (∀ l ∈ lines, lineAccepted l = true) →
      s.documents.length < B →
      ((lines.foldl (stepLine B) s).documents.length
          = (s.documents.length + lines.length) % B
      ∧ (lines.foldl (stepLine B) s).upserts.length
          = s.upserts.length + (s.documents.length + lines.length) / B
      ∧ (lines.foldl (stepLine B) s).currentLine = s.currentLine + lines.length
      ∧ (lines.foldl (stepLine B) s).checkpointFile
          = (if (s.documents.length + lines.length) / B = 0 then s.checkpointFile
             else .withField
               (s.currentLine + lines.length
                 - (s.documents.length + lines.length) % B))) := by
  induction lines with
  | nil =>
      intro s _ hd
      simp [Nat.mod_eq_of_lt hd, Nat.div_eq_of_lt hd]
  | cons l ls ih =>
      intro s hacc hd
      have hl : lineAccepted l = true := hacc l (by simp)
      have hls : ∀ x ∈ ls, lineAccepted x = true := fun x hx => hacc x (by simp [hx])
      obtain ⟨d, rfl⟩ : ∃ d, l = .record d := by
        cases l with
        | malformed => simp [lineAccepted] at hl
        | record d => exact ⟨d, rfl⟩
      have hrec : recordAccepted d = true := by simpa [lineAccepted] using hl
      simp only [List.foldl_cons, List.length_cons]
      by_cases hfull : B ≤ s.documents.length + 1
      · have hstep : stepLine B s (.record d) =
            { documents := [], metadatas := [], ids := [],
              currentLine := s.currentLine + 1,
              checkpointFile := .withField (s.currentLine + 1),
              upserts := s.upserts ++
                [⟨s.documents ++ [docText d.title d.abstract],
                  s.metadatas ++ [mkMeta d], s.ids ++ [d.pmid.getD []]⟩] } := by
          simp [stepLine, hrec, hfull]
        rw [hstep]
        obtain ⟨h1, h2, h3, h4⟩ :=
          ih { documents := [], metadatas := [], ids := [],
               currentLine := s.currentLine + 1,
               checkpointFile := .withField (s.currentLine + 1),
               upserts := s.upserts ++
                 [⟨s.documents ++ [docText d.title d.abstract],
                   s.metadatas ++ [mkMeta d], s.ids ++ [d.pmid.getD []]⟩] }
            hls (by simpa using hB)
        simp only [List.length_append, List.length_cons, List.length_nil,
          Nat.zero_add] at h1 h2 h3 h4
        have hB1 : s.documents.length + 1 = B := by omega
        have e1 : s.documents.length + (ls.length + 1) = B + ls.length := by omega
        refine ⟨?_, ?_, ?_, ?_⟩
        · rw [h1, e1, Nat.add_mod_left]
        · rw [h2, e1, Nat.add_comm B ls.length, Nat.add_div_right _ hB]
          omega
        · rw [h3]; omega
        · rw [h4, e1, Nat.add_mod_left, Nat.add_comm B ls.length,
            Nat.add_div_right _ hB, if_neg (Nat.succ_ne_zero (ls.length / B))]
          by_cases hz : ls.length / B = 0
          · rw [if_pos hz]
            have hlt : ls.length < B := (Nat.div_eq_zero_iff hB).mp hz
            rw [Nat.mod_eq_of_lt hlt]
            congr 1
            omega
          · rw [if_neg hz]
            have := Nat.mod_le ls.length B
            congr 1
            omega
      · have hstep : stepLine B s (.record d) =
            { documents := s.documents ++ [docText d.title d.abstract],
              metadatas := s.metadatas ++ [mkMeta d],
              ids := s.ids ++ [d.pmid.getD []],
              currentLine := s.currentLine + 1,
              checkpointFile := s.checkpointFile,
              upserts := s.upserts } := by
          simp [stepLine, hrec, hfull]
        rw [hstep]
        obtain ⟨h1, h2, h3, h4⟩ :=
          ih { documents := s.documents ++ [docText d.title d.abstract],
               metadatas := s.metadatas ++ [mkMeta d],
               ids := s.ids ++ [d.pmid.getD []],
               currentLine := s.currentLine + 1,
               checkpointFile := s.checkpointFile,
               upserts := s.upserts }
            hls (by simp; omega)
        simp only [List.length_append, List.length_cons, List.length_nil] at h1 h2 h3 h4
        have e2 : s.documents.length + 1 + ls.length
            = s.documents.length + (ls.length + 1) := by omega
        have e3 : s.currentLine + 1 + ls.length = s.currentLine + (ls.length + 1) := by
          omega
        refine ⟨?_, ?_, ?_, ?_⟩
        · rw [h1, e2]
        · rw [h2, e2]
        · rw [h3]; omega
        · rw [h4, e2, e3]

/-- C1: for a store of `N` lines all of whose records are accepted and a
batch size `B > 0`, `index_papers` from an absent checkpoint issues
exactly `⌈N / B⌉` upsert calls and persists a checkpoint equal to the
total number of lines read; concretely, 4 valid records at batch size 2
give 2 upserts and checkpoint 4, and re-running after 6 more records are
appended gives exactly 3 further upserts (covering ids 4-9) and
checkpoint 10. -/
theorem C1_batch_count_law (store : List StoreLine) (B : Nat) (hB : 0 < B)
    (hall : ∀ l ∈ store, lineAccepted l = true) :
    ((index_papers store .absent B).upserts.length = (store.length + B - 1) / B
      ∧ loadCheckpoint (index_papers store .absent B).checkpointFile = store.length
      ∧ (0 < store.length →
          (index_papers store .absent B).checkpointFile = .withField store.length))
    ∧ ((index_papers demoStore4 .absent 2).upserts.length = 2
      ∧ (index_papers demoStore4 .absent 2).checkpointFile = .withField 4
      ∧ (index_papers demoStore10 (.withField 4) 2).upserts.length = 3
      ∧ (index_papers demoStore10 (.withField 4) 2).checkpointFile = .withField 10
      ∧ (index_papers demoStore10 (.withField 4) 2).upserts.map UpsertBatch.ids
          = [[['4'], ['5']], [['6'], ['7']], [['8'], ['9']]]) := by
  constructor
  · obtain ⟨h1, h2, h3, h4⟩ :=
      foldl_accepted_inv B hB store
        ⟨[], [], [], 0, .absent, []⟩ hall (by simpa using hB)
    simp only [List.length_nil, Nat.zero_add] at h1 h2 h3 h4
    rw [show index_papers store .absent B
        = finalFlush (store.foldl (stepLine B) ⟨[], [], [], 0, .absent, []⟩) from rfl]
    set t := store.foldl (stepLine B) (⟨[], [], [], 0, .absent, []⟩ : IndexState) with ht
    by_cases hmod : store.length % B = 0
    · have hdocs : t.documents = [] := List.length_eq_zero.mp (by rw [h1, hmod])
      unfold finalFlush
      rw [if_pos (by rw [hdocs]; rfl)]
      refine ⟨by rw [h2, ← ceil_div_eq _ _ hB, if_pos hmod, Nat.add_zero], ?_, ?_⟩
      · rcases Nat.eq_zero_or_pos store.length with hN | hN
        · rw [h4, if_pos (by rw [hN]; exact Nat.zero_div B), hN]
          rfl
        · have hq : ¬store.length / B = 0 := by
            intro hz
            have hlt := (Nat.div_eq_zero_iff hB).mp hz
            rw [Nat.mod_eq_of_lt hlt] at hmod
            omega
          rw [h4, if_neg hq]
          show store.length - store.length % B = store.length
          rw [hmod, Nat.sub_zero]
      · intro hN
        have hq : ¬store.length / B = 0 := by
          intro hz
          have hlt := (Nat.div_eq_zero_iff hB).mp hz
          rw [Nat.mod_eq_of_lt hlt] at hmod
          omega
        rw [h4, if_neg hq, hmod, Nat.sub_zero]
    · have hne0 : t.documents.isEmpty = false := by
        cases hdoc : t.documents with
        | nil =>
            exfalso
            apply hmod
            rw [← h1, hdoc]
            rfl
        | cons a l => rfl
      unfold finalFlush
      rw [if_neg (by simp [hne0])]
      refine ⟨?_, ?_, fun _ => ?_⟩
      · simp only [List.length_append, List.length_cons, List.length_nil, Nat.zero_add]
        rw [h2, ← ceil_div_eq _ _ hB, if_neg hmod]
      · show t.currentLine = store.length
        exact h3
      · show CheckpointFile.withField t.currentLine = CheckpointFile.withField store.length
        rw [h3]
  · exact ⟨by decide, by decide, by decide, by decide, by decide⟩

/-- Witness for `C1_batch_count_law` at the 4-record store with batch
size 2. -/
theorem C1_batch_count_law_witness :
    (0 < 2 ∧ ∀ l ∈ demoStore4, lineAccepted l = true)
    ∧ (index_papers demoStore4 .absent 2).upserts.length = (demoStore4.length + 2 - 1) / 2 :=
  ⟨⟨by decide, by decide⟩, (C1_batch_count_law demoStore4 2 (by decide) (by decide)).1.1⟩

/-- The final flush never changes the line counter. -/
theorem finalFlush_currentLine (s : IndexState) :
    (finalFlush s).currentLine = s.currentLine := by
  unfold finalFlush
  split <;> rfl

/-- Two loop states that agree on the pending batch and the upsert log
produce the same upsert log after the final flush. -/
theorem finalFlush_upserts_congr (s1 s2 : IndexState)
    (hdoc : s2.documents = s1.documents) (hmet : s2.metadatas = s1.metadatas)
    (hids : s2.ids = s1.ids) (hups : s2.upserts = s1.upserts) :
    (finalFlush s2).upserts = (finalFlush s1).upserts := by
  unfold finalFlush
  by_cases he : s1.documents.isEmpty = true
  · rw [if_pos he, if_pos (by rw [hdoc]; exact he), hups]
  · rw [if_neg he, if_neg (by rw [hdoc]; exact he)]
    simp only [hdoc, hmet, hids, hups]

/-- Running the loop from two states that differ only in the line counter
(and the checkpoint file) keeps the batches, the upsert log and the
one-line offset in lockstep. -/
theorem foldl_line_shift (B : Nat) (lines : List StoreLine) :
    ∀ s1 s2 : IndexState,
      s2.documents = s1.documents → s2.metadatas = s1.metadatas →
      s2.ids = s1.ids → s2.upserts = s1.upserts →
      s2.currentLine = s1.currentLine + 1 →
      ((lines.foldl (stepLine B) s2).documents
          = (lines.foldl (stepLine B) s1).documents
      ∧ (lines.foldl (stepLine B) s2).metadatas
          = (lines.foldl (stepLine B) s1).metadatas
      ∧ (lines.foldl (stepLine B) s2).ids = (lines.foldl (stepLine B) s1).ids
      ∧ (lines.foldl (stepLine B) s2).upserts
          = (lines.foldl (stepLine B) s1).upserts
      ∧ (lines.foldl (stepLine B) s2).currentLine
          = (lines.foldl (stepLine B) s1).currentLine + 1) := by
  induction lines with
  | nil =>
      intro s1 s2 hdoc hmet hids hup hcur
      exact ⟨hdoc, hmet, hids, hup, hcur⟩
  | cons l ls ih =>
      intro s1 s2 hdoc hmet hids hup hcur
      simp only [List.foldl_cons]
      have hstep : (stepLine B s2 l).documents = (stepLine B s1 l).documents
          ∧ (stepLine B s2 l).metadatas = (stepLine B s1 l).metadatas
          ∧ (stepLine B s2 l).ids = (stepLine B s1 l).ids
          ∧ (stepLine B s2 l).upserts = (stepLine B s1 l).upserts
          ∧ (stepLine B s2 l).currentLine = (stepLine B s1 l).currentLine + 1 := by
        cases l with
        | malformed => simp [stepLine, hdoc, hmet, hids, hup, hcur]
        | record d =>
            by_cases hacc : recordAccepted d = true
            · by_cases hfull : B ≤ s1.documents.length + 1
              · simp [stepLine, hacc, hdoc, hmet, hids, hup, hcur, hfull]
              · simp [stepLine, hacc, hdoc, hmet, hids, hup, hcur, hfull]
            · simp [stepLine, hacc, hdoc, hmet, hids, hup, hcur]
      obtain ⟨e1, e2, e3, e4, e5⟩ := hstep
      exact ih (stepLine B s1 l) (stepLine B s2 l) e1 e2 e3 e4 e5

/-- C3: a line of the store that is unparsable, lacks a pmid, or has
neither title nor abstract contributes no entry to any upsert batch, but
still advances the line position by one: the step only bumps the counter,
and a run over a store with such a line inserted anywhere in the region
being read issues exactly the same upserts while ending one line
further. -/
theorem C3_rejected_line_skip (B : Nat) (cp : CheckpointFile)
    (pre post : List StoreLine) (bad : StoreLine)
    (hbad : lineAccepted bad = false)
    (hpos : loadCheckpoint cp ≤ pre.length) :
    (∀ s : IndexState, stepLine B s bad = { s with currentLine := s.currentLine + 1 })
    ∧ (index_papers (pre ++ bad :: post) cp B).upserts
        = (index_papers (pre ++ post) cp B).upserts
    ∧ (index_papers (pre ++ bad :: post) cp B).currentLine
        = (index_papers (pre ++ post) cp B).currentLine + 1 := by
  have hstep : ∀ s : IndexState,
      stepLine B s bad = { s with currentLine := s.currentLine + 1 } := by
    intro s
    cases bad with
    | malformed => rfl
    | record d =>
        have : recordAccepted d = false := by simpa [lineAccepted] using hbad
        simp [stepLine, this]
  refine ⟨hstep, ?_⟩
  have hdropA : (pre ++ bad :: post).drop (loadCheckpoint cp)
      = pre.drop (loadCheckpoint cp) ++ bad :: post := by
    rw [List.drop_append_eq_append_drop, Nat.sub_eq_zero_of_le hpos, List.drop_zero]
  have hdropB : (pre ++ post).drop (loadCheckpoint cp)
      = pre.drop (loadCheckpoint cp) ++ post := by
    rw [List.drop_append_eq_append_drop, Nat.sub_eq_zero_of_le hpos, List.drop_zero]
  unfold index_papers
  rw [hdropA, hdropB, List.foldl_append, List.foldl_append, List.foldl_cons, hstep]
  set t := (pre.drop (loadCheckpoint cp)).foldl (stepLine B) (initState cp) with ht
  obtain ⟨e1, e2, e3, e4, e5⟩ :=
    foldl_line_shift B post t { t with currentLine := t.currentLine + 1 }
      rfl rfl rfl rfl rfl
  refine ⟨finalFlush_upserts_congr _ _ e1 e2 e3 e4, ?_⟩
  rw [finalFlush_currentLine, finalFlush_currentLine, e5]

/-- Witness for `C3_rejected_line_skip`: a malformed line between two
valid records is skipped, the run upserting exactly what it would have
without it. -/
theorem C3_rejected_line_skip_witness :
    lineAccepted .malformed = false
    ∧ (index_papers [demoRec '0', .malformed, demoRec '1'] .absent 2).upserts
        = (index_papers [demoRec '0', demoRec '1'] .absent 2).upserts
    ∧ (index_papers [demoRec '0', .malformed, demoRec '1'] .absent 2).currentLine
        = (index_papers [demoRec '0', demoRec '1'] .absent 2).currentLine + 1 :=
  ⟨by decide,
    (C3_rejected_line_skip 2 .absent [demoRec '0'] [demoRec '1'] .malformed
      (by decide) (by decide)).2⟩

/-- Running the loop from two states that differ only in the checkpoint
file keeps the batches, the upsert log and the line counter identical. -/
theorem foldl_cp_congr (B : Nat) (lines : List StoreLine) :
    ∀ s1 s2 : IndexState,
      s2.documents = s1.documents → s2.metadatas = s1.metadatas →
      s2.ids = s1.ids → s2.upserts = s1.upserts →
      s2.currentLine = s1.currentLine →
      ((lines.foldl (stepLine B) s2).documents
          = (lines.foldl (stepLine B) s1).documents
      ∧ (lines.foldl (stepLine B) s2).metadatas
          = (lines.foldl (stepLine B) s1).metadatas
      ∧ (lines.foldl (stepLine B) s2).ids = (lines.foldl (stepLine B) s1).ids
      ∧ (lines.foldl (stepLine B) s2).upserts
          = (lines.foldl (stepLine B) s1).upserts
      ∧ (lines.foldl (stepLine B) s2).currentLine
          = (lines.foldl (stepLine B) s1).currentLine) := by
  induction lines with
  | nil =>
      intro s1 s2 hdoc hmet hids hup hcur
      exact ⟨hdoc, hmet, hids, hup, hcur⟩
  | cons l ls ih =>
      intro s1 s2 hdoc hmet hids hup hcur
      simp only [List.foldl_cons]
      have hstep : (stepLine B s2 l).documents = (stepLine B s1 l).documents
          ∧ (stepLine B s2 l).metadatas = (stepLine B s1 l).metadatas
          ∧ (stepLine B s2 l).ids = (stepLine B s1 l).ids
          ∧ (stepLine B s2 l).upserts = (stepLine B s1 l).upserts
          ∧ (stepLine B s2 l).currentLine = (stepLine B s1 l).currentLine := by
        cases l with
        | malformed => simp [stepLine, hdoc, hmet, hids, hup, hcur]
        | record d =>
            by_cases hacc : recordAccepted d = true
            · by_cases hfull : B ≤ s1.documents.length + 1
              · simp [stepLine, hacc, hdoc, hmet, hids, hup, hcur, hfull]
              · simp [stepLine, hacc, hdoc, hmet, hids, hup, hcur, hfull]
            · simp [stepLine, hacc, hdoc, hmet, hids, hup, hcur]
      obtain ⟨e1, e2, e3, e4, e5⟩ := hstep
      exact ih (stepLine B s1 l) (stepLine B s2 l) e1 e2 e3 e4 e5

/-- A checkpoint that loads as 0 makes the run observably identical to a
run from an absent checkpoint. -/
theorem index_papers_load_zero (store : List StoreLine) (B : Nat)
    (cp : CheckpointFile) (h0 : loadCheckpoint cp = 0) :
    (index_papers store cp B).upserts = (index_papers store .absent B).upserts
    ∧ (index_papers store cp B).currentLine
        = (index_papers store .absent B).currentLine := by
  unfold index_papers
  rw [h0, show loadCheckpoint .absent = 0 from rfl]
  obtain ⟨e1, e2, e3, e4, e5⟩ :=
    foldl_cp_congr B (store.drop 0) (initState .absent) (initState cp)
      rfl rfl rfl rfl h0
  exact ⟨finalFlush_upserts_congr _ _ e1 e2 e3 e4,
    by rw [finalFlush_currentLine, finalFlush_currentLine, e5]⟩

/-- C9: an absent, unreadable/invalid, or field-less checkpoint file loads
as 0 instead of raising, so `index_papers` silently reads the store from
line 0, behaving like a run from an absent checkpoint. -/
theorem C9_checkpoint_fallback (cp : CheckpointFile) (store : List StoreLine)
    (B : Nat) (h : cp = .absent ∨ cp = .corrupt ∨ cp = .noField) :
    loadCheckpoint cp = 0
    ∧ store.drop (loadCheckpoint cp) = store
    ∧ (index_papers store cp B).upserts = (index_papers store .absent B).upserts
    ∧ (index_papers store cp B).currentLine
        = (index_papers store .absent B).currentLine := by
  have h0 : loadCheckpoint cp = 0 := by
    rcases h with rfl | rfl | rfl <;> rfl
  obtain ⟨e1, e2⟩ := index_papers_load_zero store B cp h0
  exact ⟨h0, by rw [h0]; exact List.drop_zero _, e1, e2⟩

/-- Witness for `C9_checkpoint_fallback` at a corrupt checkpoint file and
the 4-record store. -/
theorem C9_checkpoint_fallback_witness :
    loadCheckpoint .corrupt = 0
    ∧ demoStore4.drop (loadCheckpoint .corrupt) = demoStore4
    ∧ (index_papers demoStore4 .corrupt 2).upserts
        = (index_papers demoStore4 .absent 2).upserts
    ∧ (index_papers demoStore4 .corrupt 2).currentLine
        = (index_papers demoStore4 .absent 2).currentLine :=
  C9_checkpoint_fallback .corrupt demoStore4 2 (Or.inr (Or.inl rfl))

/-- C7: after `reset_db` the checkpoint file is absent, the backing
collection is empty, the checkpoint loads as 0 and a subsequent index run
reads the store from line 0.  The definition of `reset_db` is modelled
from the spec because only the tests call it. -/
theorem C7_reset_completeness (s : VectorStoreState) (store : List StoreLine) :
    (reset_db s).checkpointFile = .absent
    ∧ (reset_db s).collectionEntries = []
    ∧ loadCheckpoint (reset_db s).checkpointFile = 0
    ∧ store.drop (loadCheckpoint (reset_db s).checkpointFile) = store :=
  ⟨rfl, rfl, rfl, List.drop_zero _⟩

/-- The range header of an attempt is always computed from the on-disk
size at the start of that attempt. -/
theorem attemptRun_rangeStart (env : AttemptEnv) (fs : Nat) :
    (attemptRun env fs).rangeStart = rangeHeader fs := by
  unfold attemptRun
  split
  · rfl
  · split
    · rfl
    · split
      · rfl
      · split
        · rfl
        · split
          · rfl
          · split
            · rfl
            · split
              · rfl
              · rfl

/-- A parsable (or absent) `content-length` always yields a total. -/
theorem totalAfterGet_some (probeT : Nat) (clen : LenHeader) (cur : Nat)
    (h : clen ≠ .malformed) :
    ∃ t2, totalAfterGet probeT clen cur = some t2 := by
  unfold totalAfterGet
  split
  · cases clen with
    | missing => exact ⟨0, rfl⟩
    | malformed => exact absurd rfl h
    | value l => exact ⟨l + cur, rfl⟩
  · exact ⟨probeT, rfl⟩

/-- The on-disk size after a non-error response with a parsable total is
the post-status offset plus the body bytes, whatever the truncation check
decides. -/
theorem attemptRun_resp_newSize (env : AttemptEnv) (fs code total total2 : Nat)
    (clen : LenHeader) (bytes : Nat) (intr : Bool)
    (hprobe : probeTotal env.probe = some total)
    (hget : env.get = .resp code clen bytes intr) (hcode : ¬400 ≤ code)
    (hskip : ¬(0 < total ∧ total ≤ fs))
    (hlen : totalAfterGet total clen (sizeAfterStatus code fs) = some total2) :
    (attemptRun env fs).newSize = sizeAfterStatus code fs + bytes := by
  simp only [attemptRun, hprobe, hget, hlen]
  rw [if_neg hskip, if_neg hcode]
  cases intr
  · rw [if_neg Bool.false_ne_true]
    split
    · rfl
    · rfl
  · rw [if_pos rfl]

/-- C4: the GET of each attempt carries a byte-range header starting at
exactly the current on-disk size `k` (omitted when `k = 0`); when the
probed total is known and `k` already reaches it, the attempt returns
success without issuing any transfer; a 200 response restarts the write at
offset 0 while any other accepted response (in particular 206) appends to
the existing `k` bytes. -/
theorem C4_resume_correctness :
    (∀ (env : AttemptEnv) (fs : Nat), 0 < fs →
        (attemptRun env fs).rangeStart = some fs)
    ∧ (∀ env : AttemptEnv, (attemptRun env 0).rangeStart = none)
    ∧ (∀ (env : AttemptEnv) (fs total : Nat),
        probeTotal env.probe = some total → 0 < total → total ≤ fs →
        (attemptRun env fs).getIssued = false
          ∧ (attemptRun env fs).result = .success
          ∧ (attemptRun env fs).newSize = fs)
    ∧ (∀ (env : AttemptEnv) (fs total : Nat) (clen : LenHeader) (bytes : Nat)
          (intr : Bool),
        probeTotal env.probe = some total →
        env.get = .resp 200 clen bytes intr →
        ¬(0 < total ∧ total ≤ fs) → clen ≠ .malformed →
        (attemptRun env fs).newSize = bytes)
    ∧ (∀ (env : AttemptEnv) (fs total : Nat) (clen : LenHeader) (bytes : Nat)
          (intr : Bool),
        probeTotal env.probe = some total →
        env.get = .resp 206 clen bytes intr →
        ¬(0 < total ∧ total ≤ fs) → clen ≠ .malformed →
        (attemptRun env fs).newSize = fs + bytes) := by
  refine ⟨?_, ?_, ?_, ?_, ?_⟩
  · intro env fs hfs
    rw [attemptRun_rangeStart, rangeHeader, if_pos hfs]
  · intro env
    rw [attemptRun_rangeStart]
    rfl
  · intro env fs total hprobe h1 h2
    simp only [attemptRun, hprobe]
    rw [if_pos ⟨h1, h2⟩]
    exact ⟨rfl, rfl, rfl⟩
  · intro env fs total clen bytes intr hprobe hget hskip hclen
    obtain ⟨t2, hlen⟩ := totalAfterGet_some total clen (sizeAfterStatus 200 fs) hclen
    rw [attemptRun_resp_newSize env fs 200 total t2 clen bytes intr hprobe hget
      (by omega) hskip hlen]
    simp [sizeAfterStatus]
  · intro env fs total clen bytes intr hprobe hget hskip hclen
    obtain ⟨t2, hlen⟩ := totalAfterGet_some total clen (sizeAfterStatus 206 fs) hclen
    rw [attemptRun_resp_newSize env fs 206 total t2 clen bytes intr hprobe hget
      (by omega) hskip hlen]
    simp [sizeAfterStatus]

/-- Witness for `C4_resume_correctness` at concrete attempts: resume at
size 3, fresh file, already-complete file of size 5, 200 restart, 206
append. -/
theorem C4_resume_correctness_witness :
    (attemptRun env206 3).rangeStart = some 3
    ∧ (attemptRun env206 0).rangeStart = none
    ∧ ((attemptRun envComplete 5).getIssued = false
        ∧ (attemptRun envComplete 5).result = .success
        ∧ (attemptRun envComplete 5).newSize = 5)
    ∧ (attemptRun env200 3).newSize = 2
    ∧ (attemptRun env206 3).newSize = 3 + 2 :=
  ⟨C4_resume_correctness.1 env206 3 (by decide),
    C4_resume_correctness.2.1 env206,
    C4_resume_correctness.2.2.1 envComplete 5 5 (by decide) (by decide) (by decide),
    C4_resume_correctness.2.2.2.1 env200 3 5 .missing 2 false (by decide) rfl
      (by decide) (by decide),
    C4_resume_correctness.2.2.2.2 env206 3 5 .missing 2 false (by decide) rfl
      (by decide) (by decide)⟩

/-- C5 (counterexample): an attempt whose HEAD probe fails does not back
off and retry — the failure is absorbed by treating the total as unknown,
and the same attempt's GET can succeed immediately, with no sleep and no
further attempt. -/
theorem C5_counterexample :
    probeFailEnv.probe = .fail
    ∧ (attemptRun probeFailEnv 0).result = .success
    ∧ download_file (fun _ => probeFailEnv) 5 0
        = { ok := true, finalSize := 5, sleeps := [], attemptsUsed := 1 } := by
  refine ⟨rfl, by decide, by decide⟩

/-- Restarting the size recursion one attempt later lines up with the
original recursion shifted by one. -/
theorem sizeAt_shift (env : Nat → AttemptEnv) (a fs : Nat) :
    ∀ k, sizeAt env (a + 1) ((attemptRun (env a) fs).newSize) k
      = sizeAt env a fs (k + 1) := by
  intro k
  induction k with
  | zero =>
      show (attemptRun (env a) fs).newSize
        = (attemptRun (env (a + 0)) (sizeAt env a fs 0)).newSize
      rw [Nat.add_zero]
      rfl
  | succ k ih =>
      show (attemptRun (env (a + 1 + k)) (sizeAt env (a + 1) _ k)).newSize
        = (attemptRun (env (a + (k + 1))) (sizeAt env a fs (k + 1))).newSize
      rw [ih, show a + 1 + k = a + (k + 1) from by omega]

/-- A failed run of the retry loop either used all its fuel, sleeping the
doubling schedule before every following attempt, or was cut short by a
non-network exception at some attempt `k`, after sleeping only for the
`k` preceding retries. -/
theorem downloadLoop_fail_chars (env : Nat → AttemptEnv) :
    ∀ (fuel a fs : Nat), (downloadLoop env a fuel fs).ok = false →
      ((downloadLoop env a fuel fs).attemptsUsed = fuel
        ∧ (downloadLoop env a fuel fs).sleeps
            = (List.range fuel).map (fun i => 5 * 2 ^ (a + i)))
      ∨ (∃ k, k < fuel
          ∧ (downloadLoop env a fuel fs).attemptsUsed = k + 1
          ∧ (downloadLoop env a fuel fs).sleeps
              = (List.range k).map (fun i => 5 * 2 ^ (a + i))
          ∧ (attemptRun (env (a + k)) (sizeAt env a fs k)).result = .abort) := by
  intro fuel
  induction fuel with
  | zero => intro a fs _; exact Or.inl ⟨rfl, rfl⟩
  | succ f ih =>
      intro a fs hfail
      unfold downloadLoop at hfail ⊢
      cases hres : (attemptRun (env a) fs).result with
      | success => simp [hres] at hfail
      | abort =>
          simp only [hres]
          refine Or.inr ⟨0, Nat.succ_pos f, rfl, rfl, ?_⟩
          rw [Nat.add_zero]
          exact hres
      | retry =>
          simp only [hres] at hfail ⊢
          rcases ih (a + 1) (attemptRun (env a) fs).newSize hfail with
            ⟨ih1, ih2⟩ | ⟨k, hk, h1, h2, h3⟩
          · left
            refine ⟨by rw [ih1], ?_⟩
            rw [ih2, List.range_succ_eq_map, List.map_cons, List.map_map]
            congr 1
            apply List.map_congr_left
            intro i _
            show 5 * 2 ^ (a + 1 + i) = 5 * 2 ^ (a + (i + 1))
            rw [show a + 1 + i = a + (i + 1) from by omega]
          · right
            refine ⟨k + 1, by omega, by rw [h1], ?_, ?_⟩
            · rw [h2, List.range_succ_eq_map, List.map_cons, List.map_map]
              congr 1
              apply List.map_congr_left
              intro i _
              show 5 * 2 ^ (a + 1 + i) = 5 * 2 ^ (a + (i + 1))
              rw [show a + 1 + i = a + (i + 1) from by omega]
            · rw [sizeAt_shift env a fs k] at h3
              rw [show a + (k + 1) = a + 1 + k from by omega]
              exact h3

/-- C5 (amended): a network-layer error during the GET transfer triggers a
backoff sleep of `5 * 2 ^ attempt` seconds followed by the next attempt;
an error during the HEAD probe alone triggers no backoff (it is absorbed
by treating the total as unknown); a non-network exception (such as
`ValueError` from `int()` on a malformed `content-length`) breaks the
retry loop at once with no sleep.  Consequently a failed `download_file`
either exhausted all `max_retries` attempts with one doubling sleep per
attempt, or stopped early at an aborting attempt `k`, having slept only
for the `k` retries before it — as the concrete malformed-header run
shows, failing on attempt 1 of 5 with no sleep. -/
theorem C5_backoff_exhaustion :
    (∀ (envs : Nat → AttemptEnv) (a f fs : Nat),
        (attemptRun (envs a) fs).result = .retry →
        downloadLoop envs a (f + 1) fs
          = { ok := (downloadLoop envs (a + 1) f (attemptRun (envs a) fs).newSize).ok,
              finalSize :=
                (downloadLoop envs (a + 1) f
                  (attemptRun (envs a) fs).newSize).finalSize,
              sleeps := 5 * 2 ^ a
                :: (downloadLoop envs (a + 1) f
                  (attemptRun (envs a) fs).newSize).sleeps,
              attemptsUsed :=
                (downloadLoop envs (a + 1) f
                  (attemptRun (envs a) fs).newSize).attemptsUsed + 1 })
    ∧ (∀ (envs : Nat → AttemptEnv) (a f fs : Nat),
        (attemptRun (envs a) fs).result = .abort →
        downloadLoop envs a (f + 1) fs
          = { ok := false, finalSize := (attemptRun (envs a) fs).newSize,
              sleeps := [], attemptsUsed := 1 })
    ∧ (∀ (env : Nat → AttemptEnv) (maxRetries fs0 : Nat),
        (download_file env maxRetries fs0).ok = false →
        ((download_file env maxRetries fs0).attemptsUsed = maxRetries
          ∧ (download_file env maxRetries fs0).sleeps
              = (List.range maxRetries).map (fun i => 5 * 2 ^ i))
        ∨ (∃ k, k < maxRetries
            ∧ (download_file env maxRetries fs0).attemptsUsed = k + 1
            ∧ (download_file env maxRetries fs0).sleeps
                = (List.range k).map (fun i => 5 * 2 ^ i)
            ∧ (attemptRun (env k) (sizeAt env 0 fs0 k)).result = .abort))
    ∧ download_file (fun _ => malformedLenEnv) 5 0
        = { ok := false, finalSize := 0, sleeps := [], attemptsUsed := 1 } := by
  refine ⟨?_, ?_, ?_, by decide⟩
  · intro envs a f fs hres
    rw [downloadLoop]
    simp only [hres]
  · intro envs a f fs hres
    rw [downloadLoop]
    simp only [hres]
  · intro env maxRetries fs0 hfail
    rcases downloadLoop_fail_chars env maxRetries 0 fs0 hfail with
      ⟨h1, h2⟩ | ⟨k, hk, h1, h2, h3⟩
    · left
      refine ⟨h1, ?_⟩
      show (downloadLoop env 0 maxRetries fs0).sleeps = _
      rw [h2]
      apply List.map_congr_left
      intro i _
      rw [Nat.zero_add]
    · right
      refine ⟨k, hk, h1, ?_, ?_⟩
      · show (downloadLoop env 0 maxRetries fs0).sleeps = _
        rw [h2]
        apply List.map_congr_left
        intro i _
        rw [Nat.zero_add]
      · rw [Nat.zero_add] at h3
        exact h3

/-- Witness for `C5_backoff_exhaustion`: a network-failing attempt sleeps
5 seconds and hands the loop to the next attempt. -/
theorem C5_backoff_exhaustion_witness :
    (attemptRun envAllNetErr 0).result = .retry
    ∧ downloadLoop (fun _ => envAllNetErr) 0 (0 + 1) 0
        = { ok := (downloadLoop (fun _ => envAllNetErr) (0 + 1) 0
              (attemptRun envAllNetErr 0).newSize).ok,
            finalSize := (downloadLoop (fun _ => envAllNetErr) (0 + 1) 0
              (attemptRun envAllNetErr 0).newSize).finalSize,
            sleeps := 5 * 2 ^ 0
              :: (downloadLoop (fun _ => envAllNetErr) (0 + 1) 0
                (attemptRun envAllNetErr 0).newSize).sleeps,
            attemptsUsed := (downloadLoop (fun _ => envAllNetErr) (0 + 1) 0
              (attemptRun envAllNetErr 0).newSize).attemptsUsed + 1 } :=
  ⟨by decide, C5_backoff_exhaustion.1 (fun _ => envAllNetErr) 0 0 0 (by decide)⟩

/-- C6 (counterexample): the post-stream check compares with `<` only, so
a resulting file strictly larger than the known total (7 bytes against a
probed total of 5) is returned as success, although its size disagrees
with the total. -/
theorem C6_counterexample :
    probeTotal overLongEnv.probe = some 5
    ∧ (attemptRun overLongEnv 0).newSize = 7
    ∧ (attemptRun overLongEnv 0).result = .success := by
  refine ⟨rfl, by decide, by decide⟩

/-- C6 (amended): when the total size as known after the GET is non-zero
and the resulting file size is strictly less than it, the attempt is
treated as failed and the loop sleeps and proceeds to the next attempt
instead of returning success. -/
theorem C6_truncation_retry (env : AttemptEnv) (fs code total total2 : Nat)
    (clen : LenHeader) (bytes : Nat)
    (hprobe : probeTotal env.probe = some total)
    (hget : env.get = .resp code clen bytes false)
    (hcode : ¬400 ≤ code)
    (hskip : ¬(0 < total ∧ total ≤ fs))
    (hlen : totalAfterGet total clen (sizeAfterStatus code fs) = some total2)
    (htot : 0 < total2)
    (hlt : sizeAfterStatus code fs + bytes < total2) :
    (attemptRun env fs).result = .retry
    ∧ (∀ (envs : Nat → AttemptEnv) (a f : Nat), envs a = env →
        downloadLoop envs a (f + 1) fs
          = { ok := (downloadLoop envs (a + 1) f (attemptRun env fs).newSize).ok,
              finalSize :=
                (downloadLoop envs (a + 1) f (attemptRun env fs).newSize).finalSize,
              sleeps := 5 * 2 ^ a
                :: (downloadLoop envs (a + 1) f (attemptRun env fs).newSize).sleeps,
              attemptsUsed :=
                (downloadLoop envs (a + 1) f
                  (attemptRun env fs).newSize).attemptsUsed + 1 }) := by
  have hres : (attemptRun env fs).result = .retry := by
    simp only [attemptRun, hprobe, hget, hlen]
    rw [if_neg hskip, if_neg hcode, if_neg Bool.false_ne_true, if_pos ⟨htot, hlt⟩]
  refine ⟨hres, ?_⟩
  intro envs a f henv
  rw [downloadLoop]
  simp only [henv, hres]

/-- Witness for `C6_truncation_retry`: probe total 10, a 200 response
delivering only 3 bytes, from an empty file. -/
theorem C6_truncation_retry_witness :
    (attemptRun truncEnv 0).result = .retry
    ∧ downloadLoop (fun _ => truncEnv) 0 1 0
        = { ok := (downloadLoop (fun _ => truncEnv) 1 0 (attemptRun truncEnv 0).newSize).ok,
            finalSize := (downloadLoop (fun _ => truncEnv) 1 0
              (attemptRun truncEnv 0).newSize).finalSize,
            sleeps := 5 * 2 ^ 0
              :: (downloadLoop (fun _ => truncEnv) 1 0 (attemptRun truncEnv 0).newSize).sleeps,
            attemptsUsed := (downloadLoop (fun _ => truncEnv) 1 0
              (attemptRun truncEnv 0).newSize).attemptsUsed + 1 } := by
  obtain ⟨h1, h2⟩ :=
    C6_truncation_retry truncEnv 0 200 10 10 .missing 3 (by decide) rfl (by decide)
      (by decide) (by decide) (by decide) (by decide)
  exact ⟨h1, h2 (fun _ => truncEnv) 0 0 rfl⟩

/-- The corrected candidate loop is pointwise zipping of the three
parallel result lists. -/
theorem buildCandidates_eq_zipWith3 :
    ∀ (ids : List (List Char)) (ms : List Meta) (ds : List (List Char)),
      buildCandidates ids ms ds = List.zipWith3 mkCandidate ids ms ds := by
  intro ids
  induction ids with
  | nil => intro ms ds; cases ms <;> cases ds <;> rfl
  | cons i is ih =>
      intro ms ds
      cases ms with
      | nil => cases ds <;> rfl
      | cons m ms' =>
          cases ds with
          | nil => rfl
          | cons d ds' => simp [buildCandidates, List.zipWith3, ih]

/-- C8: the two `VectorStore.query` variants are not equivalent: on any
non-empty result the divergent variant raises `NameError` and yields no
candidate list, while the corrected variant builds one candidate per
result position whose title, journal and year come from the metadata of
that very result. -/
theorem C8_query_variants :
    (∀ r : QueryResult, r.ids ≠ [] → query_divergent r = .error "NameError")
    ∧ (∀ r : QueryResult,
        query_corrected r = List.zipWith3 mkCandidate r.ids r.metadatas r.documents)
    ∧ (∀ (i : List Char) (m : Meta) (d : List Char),
        (mkCandidate i m d).title = m.title
          ∧ (mkCandidate i m d).journal = m.journal
          ∧ (mkCandidate i m d).year = m.year)
    ∧ query_divergent demoQueryResult ≠ .ok (query_corrected demoQueryResult) := by
  refine ⟨?_, ?_, ?_, ?_⟩
  · intro r h
    cases hids : r.ids with
    | nil => exact absurd hids h
    | cons a l => simp [query_divergent, hids]
  · intro r
    exact buildCandidates_eq_zipWith3 r.ids r.metadatas r.documents
  · intro i m d
    exact ⟨rfl, rfl, rfl⟩
  · intro h
    exact Except.noConfusion h

/-- Witness for `C8_query_variants` at the one-hit result of the query
test. -/
theorem C8_query_variants_witness :
    query_divergent demoQueryResult = .error "NameError"
    ∧ query_corrected demoQueryResult
        = List.zipWith3 mkCandidate demoQueryResult.ids demoQueryResult.metadatas
            demoQueryResult.documents :=
  ⟨C8_query_variants.1 demoQueryResult (by decide),
    C8_query_variants.2.1 demoQueryResult⟩

/-- C2 (counterexample): an element with `MedlineCitation` and `Article`
present but no `PMID` child is not dropped: `parse_article` returns a
record whose `pmid` is the empty string. -/
theorem C2_counterexample :
    parse_article noPmidElem
      = some { pmid := "", title := "A title", abstract := "", authors := [],
               journal := "", year := "", doi := "", pmcid := "", pub_types := [],
               languages := [], mesh_terms := [], chemicals := [], keywords := [] } := by
  rfl

/-- C2 (amended): `parse_article` drops an element exactly when its
`MedlineCitation` or `Article` substructure is absent; an element with an
absent or empty PMID still yields a record (with empty id), and such a
record is skipped by the indexer, which never adds it to an upsert
batch. -/
theorem C2_drop_conditions (elem : XElem) :
    (parse_article elem = none ↔
      (elem.find "MedlineCitation" = none
        ∨ ∃ m, elem.find "MedlineCitation" = some m ∧ m.find "Article" = none))
    ∧ (∀ d : RecordData, pmidOk d.pmid = false →
        ∀ (B : Nat) (s : IndexState),
          stepLine B s (.record d) = { s with currentLine := s.currentLine + 1 }) := by
  constructor
  · constructor
    · intro h
      cases hmed : elem.find "MedlineCitation" with
      | none => exact Or.inl rfl
      | some m =>
          right
          refine ⟨m, rfl, ?_⟩
          cases hart : m.find "Article" with
          | none => rfl
          | some a =>
              exfalso
              simp [parse_article, hmed, hart] at h
    · intro h
      rcases h with h | ⟨m, hm, ha⟩
      · simp [parse_article, h]
      · simp [parse_article, hm, ha]
  · intro d hpm B s
    have hacc : recordAccepted d = false := by simp [recordAccepted, hpm]
    simp [stepLine, hacc]

/-- Witness for `C2_drop_conditions`: a record with an empty pmid only
advances the line counter. -/
theorem C2_drop_conditions_witness :
    stepLine 2 (initState .absent) (.record ⟨some [], ['t'], [], [], []⟩)
      = { initState .absent with
          currentLine := (initState .absent).currentLine + 1 } :=
  (C2_drop_conditions noPmidElem).2 ⟨some [], ['t'], [], [], []⟩ (by decide) 2
    (initState .absent)

/-- A list is a prefix of itself followed by anything. -/
theorem isPrefixOf_append_self (sep rest : List Char) :
    sep.isPrefixOf (sep ++ rest) = true := by
  induction sep with
  | nil => simp [List.isPrefixOf]
  | cons c cs ih => simp [List.isPrefixOf, ih]

/-- A newline-free prefix match that starts before a newline cannot reach
past it. -/
theorem isPrefixOf_through_newline :
    ∀ (sep u rest : List Char), '\n' ∉ sep →
      sep.isPrefixOf (u ++ '\n' :: rest) = true → sep.isPrefixOf u = true := by
  intro sep
  induction sep with
  | nil => intro u rest _ _; simp [List.isPrefixOf]
  | cons a s ih =>
      intro u rest hnl h
      cases u with
      | nil =>
          exfalso
          rw [List.nil_append] at h
          simp only [List.isPrefixOf, Bool.and_eq_true, beq_iff_eq] at h
          apply hnl
          rw [← h.1]
          exact List.mem_cons_self a s
      | cons b u' =>
          rw [List.cons_append] at h
          simp only [List.isPrefixOf, Bool.and_eq_true] at h ⊢
          exact ⟨h.1, ih u' rest (fun hm => hnl (List.mem_cons_of_mem a hm)) h.2⟩

/-- A failed prefix test moves the splitter one character forward. -/
theorem afterFirst_cons_not_pre (sep : List Char) (c : Char) (rest : List Char)
    (h : sep.isPrefixOf (c :: rest) = false) :
    afterFirst sep (c :: rest) = afterFirst sep rest := by
  simp [afterFirst, h]

/-- The splitter fires as soon as the separator itself starts. -/
theorem afterFirst_append (a : Char) (s rest : List Char) :
    afterFirst (a :: s) ((a :: s) ++ rest) = some rest := by
  rw [List.cons_append, afterFirst,
    if_pos (show (a :: s).isPrefixOf (a :: (s ++ rest)) = true from
      isPrefixOf_append_self (a :: s) rest)]
  simp [List.drop_succ_cons, List.drop_left]

/-- Scanning the `"Title: "` template piece never matches the separator
(whose first character `A` occurs nowhere in it). -/
theorem afterFirst_titleTag (x : List Char) :
    afterFirst sepAbstract (titleTag ++ x) = afterFirst sepAbstract x := by
  have h : ∀ (c : Char) (r : List Char), ('A' == c) = false →
      sepAbstract.isPrefixOf (c :: r) = false := by
    intro c r hc
    simp [sepAbstract, List.isPrefixOf, hc]
  show afterFirst sepAbstract
      ('T' :: 'i' :: 't' :: 'l' :: 'e' :: ':' :: ' ' :: x) = afterFirst sepAbstract x
  rw [afterFirst_cons_not_pre _ _ _ (h 'T' _ (by decide)),
    afterFirst_cons_not_pre _ _ _ (h 'i' _ (by decide)),
    afterFirst_cons_not_pre _ _ _ (h 't' _ (by decide)),
    afterFirst_cons_not_pre _ _ _ (h 'l' _ (by decide)),
    afterFirst_cons_not_pre _ _ _ (h 'e' _ (by decide)),
    afterFirst_cons_not_pre _ _ _ (h ':' _ (by decide)),
    afterFirst_cons_not_pre _ _ _ (h ' ' _ (by decide))]

/-- Past a separator-free title, the splitter lands exactly on the
template's own separator. -/
theorem afterFirst_docTail (abs : List Char) :
    ∀ title : List Char, containsSeq sepAbstract title = false →
      afterFirst sepAbstract (title ++ ('\n' :: (sepAbstract ++ abs))) = some abs := by
  intro title
  induction title with
  | nil =>
      intro _
      rw [List.nil_append,
        afterFirst_cons_not_pre sepAbstract '\n' (sepAbstract ++ abs)
          (by simp [sepAbstract, List.isPrefixOf,
            show ('A' == '\n') = false from by decide])]
      exact afterFirst_append 'A' ['b', 's', 't', 'r', 'a', 'c', 't', ':', ' '] abs
  | cons c t ih =>
      intro h
      have h1 : sepAbstract.isPrefixOf (c :: t) = false := by
        by_contra hb
        rw [Bool.not_eq_false] at hb
        unfold containsSeq at h
        rw [afterFirst, if_pos hb] at h
        simp at h
      have h2 : containsSeq sepAbstract t = false := by
        unfold containsSeq at h ⊢
        rw [afterFirst_cons_not_pre sepAbstract c t h1] at h
        exact h
      have hnotpre :
          sepAbstract.isPrefixOf
            (c :: (t ++ ('\n' :: (sepAbstract ++ abs)))) = false := by
        by_contra hb
        rw [Bool.not_eq_false] at hb
        rw [show c :: (t ++ ('\n' :: (sepAbstract ++ abs)))
            = (c :: t) ++ ('\n' :: (sepAbstract ++ abs)) from rfl] at hb
        have := isPrefixOf_through_newline sepAbstract (c :: t) (sepAbstract ++ abs)
          (by decide) hb
        rw [this] at h1
        exact Bool.noConfusion h1
      rw [List.cons_append,
        afterFirst_cons_not_pre sepAbstract c (t ++ ('\n' :: (sepAbstract ++ abs)))
          hnotpre]
      exact ih h2

/-- C10: when a record's title contains no occurrence of `"Abstract: "`,
the abstract survives the round trip through the stored document: the
indexer stores `"Title: <title>\nAbstract: <abstract>"`, and the query's
split on the first `"Abstract: "` recovers exactly the original abstract
in the returned candidate. -/
theorem C10_abstract_roundtrip (title abs : List Char)
    (h : containsSeq sepAbstract title = false) :
    extractAbstract (docText title abs) = abs
    ∧ ∀ (i : List Char) (m : Meta),
        (mkCandidate i m (docText title abs)).abstract = abs := by
  have key : afterFirst sepAbstract (docText title abs) = some abs := by
    unfold docText
    rw [afterFirst_titleTag]
    exact afterFirst_docTail abs title h
  have hext : extractAbstract (docText title abs) = abs := by
    unfold extractAbstract containsSeq
    rw [key]
    rfl
  exact ⟨hext, fun i m => hext⟩

/-- Witness for `C10_abstract_roundtrip` at a concrete title and
abstract. -/
theorem C10_abstract_roundtrip_witness :
    extractAbstract (docText ['T', 'x'] ['y', 'z']) = ['y', 'z'] :=
  (C10_abstract_roundtrip ['T', 'x'] ['y', 'z'] (by decide)).1

end PubMed
